import Mathlib

/-!
Shallow embedding of `reporouge_cli.py`, the single source file of the
RepoRouge CLI client, together with proofs about the behaviour its
specification claims.

Modelling conventions:

* HTTP calls (`requests` session methods followed by `raise_for_status`)
  are modelled as `Except String α` oracle parameters: `.error e` is a run
  in which the call raised `requests.exceptions.RequestException`, `.ok v`
  a run in which it succeeded with payload `v`.  Each command function
  consumes the oracles in exactly the order the Python code performs the
  calls, and later oracles are simply ignored on an early-error path,
  matching the fact that the corresponding requests are never sent.
* Files and directories are modelled as explicit data: the global config
  file as raw bytes (`Option String`, `none` when absent), a working
  directory as a descriptor plus a list of `(path, content)` entries, and
  the `os.walk` input of `status`/`push` as a flat list of `WFile`
  records carrying the directory components of each regular file.  The
  enumeration order of `os.walk` is irrelevant to every claim treated
  here, so the flat list keeps whatever order it is given.
* Timestamps (`datetime.now().isoformat()`) are modelled as natural
  numbers; clock monotonicity between two reads is an explicit
  hypothesis where a claim needs it.
* Exceptions that the Python code catches are part of each oracle or
  flag; exceptions it does not catch propagate to the top-level handler
  and are outside the state transitions modelled here.
-/

/-- Substring occurrence on character lists: `hasSub pat s` is `true`
exactly when `pat` occurs contiguously inside `s`.  This embeds the
Python expression `pat in s` on strings, used by `status` and `push` as
`'.reporouge' in root`. -/
def hasSub (pat : List Char) : List Char → Bool
  | [] => pat.isEmpty
  | c :: rest => pat.isPrefixOf (c :: rest) || hasSub pat rest

/-- String version of `hasSub`, over the underlying character lists. -/
def strHasSub (pat s : String) : Bool :=
  hasSub pat.data s.data

/-- Embeds the Python `member.startswith('.reporouge/')` test used by
`checkout` and `pull` to skip ZIP entries destined for the hidden config
subfolder. -/
def memberInHidden (member : String) : Bool :=
  ".reporouge/".data.isPrefixOf member.data

/-- Global configuration, the JSON object stored at `~/.reporouge/config.json`.
The `email` field is `none` when the key is absent (the defaults written by
`load_config` carry no `email` key). -/
structure GlobalConfig where
  server_url : String
  token : Option String
  username : Option String
  email : Option String
deriving DecidableEq

/-- Default configuration returned by `RepoRougeConfig.load_config` when the
config file is absent or unparsable (lines 84 and 91 of the source). -/
def defaultConfig : GlobalConfig :=
  { server_url := "https://repo-rouge.onrender.com"
    token := none
    username := none
    email := none }

/-- Embeds `RepoRougeConfig.load_config`.  `file` is the on-disk state of
the global config file (`none` when `self.config_file.exists()` is false,
otherwise the raw bytes).  `jsonLoad` abstracts the library call
`json.load`, returning `none` when it raises `json.JSONDecodeError` (an
`IOError` from `open` is folded into the same `none`, since the code
catches both with the same fallback).  Both failure paths return the
default config, so the embedded function is total: the command never
raises. -/
def load_config (jsonLoad : String → Option GlobalConfig)
    (file : Option String) : GlobalConfig :=
  match file with
  | none => defaultConfig
  | some raw =>
    match jsonLoad raw with
    | some cfg => cfg
    | none => defaultConfig

/-- User identity object inside a successful `/auth/login` response. -/
structure LoginUser where
  username : String
  email : String
deriving DecidableEq

/-- Payload of a successful `/auth/login` response, as the `login` command
reads it (`access_token` and `user` fields). -/
structure LoginResponse where
  access_token : String
  user : LoginUser
deriving DecidableEq

/-- Payload of a successful `/auth/cli-token` response. -/
structure CliTokenResponse where
  cli_token : String
deriving DecidableEq

/-- Observable outcome of the `login` command: the error message path or
the success message naming the logged-in user. -/
inductive LoginOutcome
  | failed (err : String)
  | loggedIn (username : String)
deriving DecidableEq

/-- Embeds the `login` command.  `save` abstracts
`RepoRougeConfig.save_config` composed with `json.dump` serialisation: it
maps the config record to the new raw bytes of the global config file.
`priorFile` is the file state before the command.  The two oracles are the
`/auth/login` and `/auth/cli-token` calls, in the order the code performs
them; both raise inside one `try` block whose handler leaves the file
untouched.  The result is the file state after the command together with
the outcome. -/
def login (save : GlobalConfig → Option String)
    (priorFile : Option String) (server : String)
    (loginR : Except String LoginResponse)
    (cliR : Except String CliTokenResponse) :
    Option String × LoginOutcome :=
  match loginR with
  | .error e => (priorFile, .failed e)
  | .ok resp =>
    match cliR with
    | .error e => (priorFile, .failed e)
    | .ok cli =>
      (save { server_url := server
              token := some cli.cli_token
              username := some resp.user.username
              email := some resp.user.email },
       .loggedIn resp.user.username)

/-- Local repository descriptor stored at `.reporouge/config.json` inside a
working directory.  `cloned_at` is the timestamp modelled as a natural
number. -/
structure RepoDescriptor where
  owner : String
  repo_name : String
  current_branch : String
  cloned_at : Nat
deriving DecidableEq

/-- State of a working directory: the hidden descriptor (or `none` when the
directory is not linked to a repository) and the tracked entries outside
the `.reporouge` subfolder, as `(relative path, content)` pairs. -/
structure WorkState where
  descriptor : Option RepoDescriptor
  entries : List (String × String)
deriving DecidableEq

/-- Embeds the `checkout` command.  Guard: missing descriptor or missing
token returns immediately.  Then, in source order inside the `try` block:
the `switch_branch` call (`switchR`), the descriptor rewrite setting
`current_branch`, the `clone_repo` download (`cloneR`), the clearing of all
top-level entries other than `.reporouge`, and the extraction of every ZIP
member not starting with `.reporouge/`.  A raise at either oracle is
caught by the `except` clause, freezing the state reached at that point. -/
def checkout (st : WorkState) (token : Option String) (branch_name : String)
    (switchR : Except String Unit)
    (cloneR : Except String (List (String × String))) : WorkState :=
  match st.descriptor, token with
  | none, _ => st
  | some _, none => st
  | some d, some _ =>
    match switchR with
    | .error _ => st
    | .ok _ =>
      let st2 : WorkState :=
        { st with descriptor := some { d with current_branch := branch_name } }
      match cloneR with
      | .error _ => st2
      | .ok zipMembers =>
        { descriptor := st2.descriptor
          entries := zipMembers.filter (fun m => !(memberInHidden m.1)) }

/-- Embeds the `pull` command: same guard as `checkout`, then the
`clone_repo` download for the current branch, then clear-and-extract.  A
download failure is caught with the directory untouched. -/
def pull (st : WorkState) (token : Option String)
    (cloneR : Except String (List (String × String))) : WorkState :=
  match st.descriptor, token with
  | none, _ => st
  | some _, none => st
  | some _, some _ =>
    match cloneR with
    | .error _ => st
    | .ok zipMembers =>
      { descriptor := st.descriptor
        entries := zipMembers.filter (fun m => !(memberInHidden m.1)) }

/-- Splits a character list at the first occurrence of `sep`, returning
`none` when `sep` does not occur.  Embeds Python `s.split(sep, 1)`
unpacked into two variables, whose `ValueError` on a separator-less
string is the `none` case. -/
def splitOnce (sep : Char) : List Char → Option (List Char × List Char)
  | [] => none
  | c :: rest =>
    if c = sep then some ([], rest)
    else
      match splitOnce sep rest with
      | none => none
      | some (pre, post) => some (c :: pre, post)

/-- Embeds `owner, repo_name = repo_url.split('/', 1)` from the `clone`
command. -/
def splitOwnerRepo (s : String) : Option (String × String) :=
  match splitOnce '/' s.data with
  | none => none
  | some (pre, post) => some (⟨pre⟩, ⟨post⟩)

/-- Repository metadata returned by `/api/repos/{owner}/{repo}/info`; only
the description is read, for display. -/
structure RepoInfo where
  description : Option String
deriving DecidableEq

/-- State of the clone target directory: the files extracted from the ZIP
and the hidden descriptor written by `clone` (`none` when absent). -/
structure TargetDir where
  files : List (String × String)
  descriptor : Option RepoDescriptor
deriving DecidableEq

/-- Observable outcome of the `clone` command. -/
inductive CloneOutcome
  | needLogin
  | badUrl
  | httpError (e : String)
  | aborted
  | cloned (dirName : String)
deriving DecidableEq

/-- Embeds the `clone` command.  In source order: token guard, URL split,
the `get_repo_info` call (`infoR`), the `clone_repo` download (`zipR`),
the existing-target check with its overwrite confirmation (`pre` is the
prior state of the target directory, `none` when it does not exist;
`confirm` is the user's answer, read only when the directory exists), the
recursive delete plus full `extractall`, and finally the descriptor write
with `cloned_at` set to the `datetime.now()` value `now`.  The result is
the state of the target directory after the command together with the
outcome; on every non-success path the directory state is returned as it
was. -/
def clone (cfg : GlobalConfig) (repo_url branch : String)
    (directory : Option String)
    (infoR : Except String RepoInfo)
    (zipR : Except String (List (String × String)))
    (pre : Option TargetDir) (confirm : Bool) (now : Nat) :
    Option TargetDir × CloneOutcome :=
  match cfg.token with
  | none => (pre, .needLogin)
  | some _ =>
    match splitOwnerRepo repo_url with
    | none => (pre, .badUrl)
    | some (owner, repo_name) =>
      match infoR with
      | .error e => (pre, .httpError e)
      | .ok _ =>
        match zipR with
        | .error e => (pre, .httpError e)
        | .ok zipMembers =>
          let target_dir := directory.getD repo_name
          let done : TargetDir :=
            { files := zipMembers
              descriptor := some { owner := owner
                                   repo_name := repo_name
                                   current_branch := branch
                                   cloned_at := now } }
          match pre with
          | some t0 =>
            if confirm then (some done, .cloned target_dir)
            else (some t0, .aborted)
          | none => (some done, .cloned target_dir)

/-- A regular file as seen by the `os.walk('.')` loops of `status` and
`push`: `dirs` is the chain of directory names from the working-directory
root down to the file's directory, `name` the file name.  `relOk` models
whether `Path(root) / file .relative_to('.')` succeeds (its `ValueError`
is caught and skips the file in both commands); `readable` models the
absence of `PermissionError` on `open`, and `utf8ok` the absence of
`UnicodeDecodeError` on `read` — both checked only by `push`, which reads
`content` when they hold. -/
structure WFile where
  dirs : List String
  name : String
  relOk : Bool
  readable : Bool
  utf8ok : Bool
  content : String
deriving DecidableEq

/-- Root string that `os.walk('.')` reports for a file with directory
chain `dirs`: `"."` for the top level, then `"./" ++ `-joined components,
exactly the strings tested by `'.reporouge' in root`. -/
def walkRoot (dirs : List String) : String :=
  dirs.foldl (fun acc d => acc ++ "/" ++ d) "."

/-- Relative path printed by `status` and sent by `push` for a file:
`Path(root) / file` made relative to `.`. -/
def relPath (f : WFile) : String :=
  String.intercalate "/" (f.dirs ++ [f.name])

/-- Files that survive the `status` walk: the file's walk root must not
contain `.reporouge` as a substring (the `continue` on line 332; it also
covers every descendant of a skipped directory, whose root string extends
the skipped one), and the path relativization must succeed.  The walk
does not open files, so contents and permissions are irrelevant here. -/
def statusFiles (fs : List WFile) : List WFile :=
  fs.filter (fun f => !(strHasSub ".reporouge" (walkRoot f.dirs)) && f.relOk)

/-- Observable outcome of the `status` command: the not-a-repository error
or the header plus the files listed as modified. -/
inductive StatusOutcome
  | notRepo
  | listing (repo : RepoDescriptor) (modified : List WFile)
deriving DecidableEq

/-- Embeds the `status` command: descriptor guard, then the unconditional
modified-file listing over the walk. -/
def status (descriptor : Option RepoDescriptor) (fs : List WFile) :
    StatusOutcome :=
  match descriptor with
  | none => .notRepo
  | some d => .listing d (statusFiles fs)

/-- Predicate written from the specification's words, for comparison with
the source-derived `statusFiles`: a file lies in the hidden config
subfolder exactly when its directory chain starts at the top-level
`.reporouge` folder.  The source instead tests substring containment on
the whole root string. -/
def inHiddenConfigDir (f : WFile) : Bool :=
  match f.dirs with
  | [] => false
  | d :: _ => d == ".reporouge"

/-- Eligibility of a file for the `push` payload: walk root free of the
`.reporouge` substring, relativization succeeds, file readable, contents
UTF-8 decodable.  These are the conditions under which the walk loop of
`push` appends a record instead of hitting `continue` or the
`except (UnicodeDecodeError, PermissionError, ValueError)` skip. -/
def pushEligible (f : WFile) : Bool :=
  !(strHasSub ".reporouge" (walkRoot f.dirs)) && f.relOk && f.readable && f.utf8ok

/-- One element of the JSON array sent by `push`. -/
structure PushRecord where
  path : String
  content : String
  message : String
deriving DecidableEq

/-- The `files_to_push` list built by the `push` walk for a given commit
message. -/
def pushRecords (message : String) (fs : List WFile) : List PushRecord :=
  (fs.filter pushEligible).map
    (fun f => { path := relPath f, content := f.content, message := message })

/-- Observable outcome of the `push` command.  Only `sent` performs a
network call (`api.push_files`). -/
inductive PushOutcome
  | notRepo
  | nothingToPush
  | sent (records : List PushRecord) (branch : String)
deriving DecidableEq

/-- Whether a `push` outcome involved a network call. -/
def networkCall : PushOutcome → Bool
  | .sent _ _ => true
  | _ => false

/-- Embeds the `push` command: descriptor-and-token guard, the file walk
building `files_to_push`, the empty check printing `No files to push`, and
only past that the `push_files` request tagged with the current branch. -/
def push (descriptor : Option RepoDescriptor) (token : Option String)
    (message : String) (fs : List WFile) : PushOutcome :=
  match descriptor, token with
  | none, _ => .notRepo
  | some _, none => .notRepo
  | some d, some _ =>
    let records := pushRecords message fs
    if records.isEmpty then .nothingToPush
    else .sent records d.current_branch

/-! Helper lemmas shared by several theorems. -/

theorem hasSub_iff (pat s : List Char) :
    hasSub pat s = true ↔ ∃ pre post, s = pre ++ pat ++ post := by
  induction s with
  | nil =>
    constructor
    · intro h
      have hp : pat = [] := by simpa [hasSub] using h
      exact ⟨[], [], by simp [hp]⟩
    · rintro ⟨pre, post, h⟩
      obtain ⟨h1, h2⟩ := List.append_eq_nil.mp (List.append_eq_nil.mp h.symm).1
      simp [hasSub, h2]
  | cons c rest ih =>
    constructor
    · intro h
      rcases Bool.or_eq_true _ _ |>.mp h with h1 | h2
      · obtain ⟨t, ht⟩ := List.isPrefixOf_iff_prefix.mp h1
        exact ⟨[], t, by simp [ht]⟩
      · obtain ⟨pre, post, hx⟩ := ih.mp h2
        exact ⟨c :: pre, post, by simp [hx]⟩
    · rintro ⟨pre, post, h⟩
      match pre, h with
      | [], h =>
        have : pat <+: c :: rest := ⟨post, by simpa using h.symm⟩
        simp [hasSub, List.isPrefixOf_iff_prefix.mpr this]
      | p :: pre2, h =>
        have hrest : rest = pre2 ++ pat ++ post := by
          simpa using congrArg List.tail h
        have : hasSub pat rest = true := ih.mpr ⟨pre2, post, hrest⟩
        simp [hasSub, this]

theorem hasSub_false_iff (pat s : List Char) :
    hasSub pat s = false ↔ ¬ ∃ pre post, s = pre ++ pat ++ post := by
  rw [Bool.eq_false_iff]
  exact not_congr (hasSub_iff pat s)

/-! Claim theorems. -/

/-- C4: for every global-config file state that is absent or whose contents
fail JSON parsing, `load_config` returns the default configuration
(default server URL, no token, no username); the embedded function is
total, matching the source's catch-all fallback, so no exception escapes. -/
theorem load_config_defaults (jsonLoad : String → Option GlobalConfig)
    (file : Option String)
    (h : file = none ∨ ∃ raw, file = some raw ∧ jsonLoad raw = none) :
    load_config jsonLoad file = defaultConfig := by
  rcases h with h | ⟨raw, hf, hp⟩
  · simp [load_config, h]
  · simp [load_config, hf, hp]

/-- Witness for C4 at a concrete malformed file. -/
theorem load_config_defaults_witness :
    load_config (fun _ => none) (some "not json at all") = defaultConfig :=
  load_config_defaults (fun _ => none) (some "not json at all")
    (Or.inr ⟨"not json at all", rfl, rfl⟩)

/-- C5: a failed login request leaves the global config file exactly as it
was, for every prior file state; a login in which both the credential
check and the token exchange succeed writes the config whose token is the
server-issued CLI token and whose username and email are the server-issued
identity, with no dependence on the prior file contents. -/
theorem login_config_contract (save : GlobalConfig → Option String)
    (priorFile : Option String) (server : String) :
    (∀ e cliR, login save priorFile server (.error e) cliR = (priorFile, .failed e)) ∧
    (∀ resp cli, login save priorFile server (.ok resp) (.ok cli) =
      (save { server_url := server
              token := some cli.cli_token
              username := some resp.user.username
              email := some resp.user.email },
       .loggedIn resp.user.username)) :=
  ⟨fun _ _ => rfl, fun _ _ => rfl⟩

/-- C2: when the server branch-switch request fails, `checkout` returns the
working directory exactly as it was: descriptor (hence `current_branch`)
and every entry untouched, whatever the download oracle would have
answered. -/
theorem checkout_switch_failure_frame (st : WorkState) (token : Option String)
    (branch_name e : String)
    (cloneR : Except String (List (String × String))) :
    checkout st token branch_name (.error e) cloneR = st := by
  unfold checkout
  cases st.descriptor <;> cases token <;> simp

/-- C3: when the branch ZIP download fails, `pull` returns the working
directory exactly as it was: the clear and extract steps never run. -/
theorem pull_download_failure_frame (st : WorkState) (token : Option String)
    (e : String) :
    pull st token (.error e) = st := by
  unfold pull
  cases st.descriptor <;> cases token <;> simp

/-- C1 counterexample: a run of `checkout` in which the server switch
succeeds and the ZIP download fails does not leave the local repository
descriptor unchanged — `current_branch` has already been rewritten to the
requested branch, refuting the claim that every server-side failure leaves
the descriptor untouched. -/
theorem checkout_download_failure_mutates :
    checkout ⟨some ⟨"alice", "proj", "main", 7⟩, [("README.md", "hi")]⟩
        (some "tok") "dev" (.ok ()) (.error "net") =
      ⟨some ⟨"alice", "proj", "dev", 7⟩, [("README.md", "hi")]⟩ ∧
    (⟨some ⟨"alice", "proj", "dev", 7⟩, [("README.md", "hi")]⟩ : WorkState) ≠
      ⟨some ⟨"alice", "proj", "main", 7⟩, [("README.md", "hi")]⟩ :=
  ⟨rfl, by decide⟩

/-- C1 (amended): a failure of the branch-switch request leaves the
descriptor and the working-directory contents unchanged; a failure of the
subsequent ZIP download leaves the working-directory contents unchanged,
but the descriptor has by then already been rewritten with
`current_branch` set to the requested branch. -/
theorem checkout_failure_frame (st : WorkState) (tok branch_name e : String)
    (d : RepoDescriptor) (hd : st.descriptor = some d) :
    (∀ cloneR, checkout st (some tok) branch_name (.error e) cloneR = st) ∧
    (checkout st (some tok) branch_name (.ok ()) (.error e)).entries = st.entries ∧
    (checkout st (some tok) branch_name (.ok ()) (.error e)).descriptor =
      some { d with current_branch := branch_name } := by
  refine ⟨fun cloneR => ?_, ?_, ?_⟩ <;> simp [checkout, hd]

/-- Witness for C1 (amended) at a concrete working directory. -/
theorem checkout_failure_frame_witness :
    checkout ⟨some ⟨"bob", "demo", "main", 3⟩, [("a.txt", "x")]⟩
        (some "t") "feature" (.error "down") (.ok []) =
      ⟨some ⟨"bob", "demo", "main", 3⟩, [("a.txt", "x")]⟩ ∧
    (checkout ⟨some ⟨"bob", "demo", "main", 3⟩, [("a.txt", "x")]⟩
        (some "t") "feature" (.ok ()) (.error "down")).entries = [("a.txt", "x")] ∧
    (checkout ⟨some ⟨"bob", "demo", "main", 3⟩, [("a.txt", "x")]⟩
        (some "t") "feature" (.ok ()) (.error "down")).descriptor =
      some ⟨"bob", "demo", "feature", 3⟩ := by
  obtain ⟨h1, h2, h3⟩ :=
    checkout_failure_frame ⟨some ⟨"bob", "demo", "main", 3⟩, [("a.txt", "x")]⟩
      "t" "feature" "down" ⟨"bob", "demo", "main", 3⟩ rfl
  exact ⟨h1 (.ok []), h2, h3⟩

/-- C6 counterexample: a file inside a directory named `docs.reporouge`,
which is not the hidden config subfolder, is nevertheless omitted from the
status listing, refuting the claim that exactly the hidden config
subfolder is excluded from the walk. -/
theorem status_exclusion_not_exact :
    status (some ⟨"alice", "proj", "main", 0⟩)
        [⟨["docs.reporouge"], "guide.txt", true, true, true, "hello"⟩] =
      .listing ⟨"alice", "proj", "main", 0⟩ [] ∧
    inHiddenConfigDir
        ⟨["docs.reporouge"], "guide.txt", true, true, true, "hello"⟩ = false := by
  exact ⟨by decide, rfl⟩

/-- C6 (amended): with a valid descriptor, status lists as modified, with
no regard to file contents, exactly those walked files whose walk-root
directory string is free of the substring `.reporouge` (and whose path
relativization succeeds, as it does for every path a real walk from `.`
produces): the hidden config subfolder is excluded, but so is any other
directory whose path contains that substring anywhere. -/
theorem status_listing_characterization (d : RepoDescriptor) (fs : List WFile)
    (f : WFile) (hmem : f ∈ fs) (hrel : f.relOk = true) :
    status (some d) fs = .listing d (statusFiles fs) ∧
    (f ∈ statusFiles fs ↔
      ¬ ∃ pre post, (walkRoot f.dirs).data = pre ++ ".reporouge".data ++ post) := by
  refine ⟨rfl, ?_⟩
  rw [← hasSub_false_iff]
  unfold statusFiles
  rw [List.mem_filter]
  simp [hmem, hrel, strHasSub, Bool.not_eq_true']

/-- Witness for C6 (amended): a top-level text file is listed. -/
theorem status_listing_characterization_witness :
    (⟨[], "notes.txt", true, true, true, "x"⟩ : WFile) ∈
      statusFiles [⟨[], "notes.txt", true, true, true, "x"⟩] :=
  ((status_listing_characterization ⟨"alice", "proj", "main", 0⟩
      [⟨[], "notes.txt", true, true, true, "x"⟩]
      ⟨[], "notes.txt", true, true, true, "x"⟩ (by simp) rfl).2).mpr
    (by rw [← hasSub_false_iff]; decide)

/-- C7: when every walked file is ineligible — skipped for failed UTF-8
decoding, missing read permission, failed relativization, or a walk root
containing `.reporouge` — push reports that there is nothing to push and
performs no network call. -/
theorem push_no_eligible_files (d : RepoDescriptor) (tok message : String)
    (fs : List WFile)
    (h : ∀ f ∈ fs, pushEligible f = false) :
    push (some d) (some tok) message fs = .nothingToPush ∧
    networkCall (push (some d) (some tok) message fs) = false := by
  have hrec : pushRecords message fs = [] := by
    unfold pushRecords
    rw [List.filter_eq_nil_iff.mpr (fun f hf => by simp [h f hf])]
    rfl
  constructor <;> simp [push, networkCall, hrec]

/-- Witness for C7: a directory holding only a binary file and the hidden
descriptor subfolder yields no network call. -/
theorem push_no_eligible_files_witness :
    push (some ⟨"alice", "proj", "main", 0⟩) (some "tok") "update"
        [⟨[], "logo.png", true, true, false, "PNG"⟩,
         ⟨[".reporouge"], "config.json", true, true, true, "desc"⟩] =
      .nothingToPush ∧
    networkCall (push (some ⟨"alice", "proj", "main", 0⟩) (some "tok") "update"
        [⟨[], "logo.png", true, true, false, "PNG"⟩,
         ⟨[".reporouge"], "config.json", true, true, true, "desc"⟩]) = false :=
  push_no_eligible_files ⟨"alice", "proj", "main", 0⟩ "tok" "update" _
    (by intro f hf; fin_cases hf <;> decide)

/-- C8: when the target directory exists and the user declines the
overwrite confirmation, clone aborts and the target directory's state is
returned untouched: no deletion, no extraction, no descriptor write. -/
theorem clone_decline_aborts (cfg : GlobalConfig) (tok repo_url branch : String)
    (owner repo_name : String) (directory : Option String) (info : RepoInfo)
    (zipMembers : List (String × String)) (t0 : TargetDir) (now : Nat)
    (htok : cfg.token = some tok)
    (hsplit : splitOwnerRepo repo_url = some (owner, repo_name)) :
    clone cfg repo_url branch directory (.ok info) (.ok zipMembers)
        (some t0) false now = (some t0, .aborted) := by
  simp [clone, htok, hsplit]

/-- Witness for C8 at a concrete populated target directory. -/
theorem clone_decline_aborts_witness :
    clone ⟨"https://repo-rouge.onrender.com", some "tok", some "alice", none⟩
        "alice/proj" "main" none (.ok ⟨some "demo repo"⟩)
        (.ok [("README.md", "hi")])
        (some ⟨[("old.txt", "keep")], none⟩) false 5 =
      (some ⟨[("old.txt", "keep")], none⟩, .aborted) :=
  clone_decline_aborts _ "tok" "alice/proj" "main" "alice" "proj" none
    ⟨some "demo repo"⟩ [("README.md", "hi")] ⟨[("old.txt", "keep")], none⟩ 5
    rfl (by decide)

/-- C9: on a successful clone — token present, well-formed `owner/repo`
argument, repo-info and ZIP calls succeeding, target either absent or
overwrite-confirmed — the target directory holds the ZIP contents and a
descriptor whose owner, repo_name and current_branch are exactly the
requested ones, whose cloned_at is the `datetime.now()` reading taken at
the descriptor write and hence, by clock monotonicity, no earlier than
the invocation start `t0`; the reported target directory defaults to the
repository name when no `--directory` option is given. -/
theorem clone_success_descriptor (cfg : GlobalConfig) (tok repo_url branch : String)
    (owner repo_name : String) (directory : Option String) (info : RepoInfo)
    (zipMembers : List (String × String)) (pre : Option TargetDir)
    (confirm : Bool) (t0 now : Nat)
    (htok : cfg.token = some tok)
    (hsplit : splitOwnerRepo repo_url = some (owner, repo_name))
    (hfresh : pre = none ∨ confirm = true)
    (hclock : t0 ≤ now) :
    clone cfg repo_url branch directory (.ok info) (.ok zipMembers) pre confirm now =
      (some ⟨zipMembers, some ⟨owner, repo_name, branch, now⟩⟩,
       .cloned (directory.getD repo_name)) ∧
    t0 ≤ (⟨owner, repo_name, branch, now⟩ : RepoDescriptor).cloned_at := by
  rcases hfresh with rfl | rfl
  · exact ⟨by simp [clone, htok, hsplit], hclock⟩
  · cases pre with
    | none => exact ⟨by simp [clone, htok, hsplit], hclock⟩
    | some t1 => exact ⟨by simp [clone, htok, hsplit], hclock⟩

/-- Witness for C9: concrete clone without a `--directory` option lands in
a directory named after the repository. -/
theorem clone_success_descriptor_witness :
    clone ⟨"https://repo-rouge.onrender.com", some "tok", some "alice", none⟩
        "alice/proj" "main" none (.ok ⟨none⟩) (.ok [("src.py", "pass")])
        none true 9 =
      (some ⟨[("src.py", "pass")], some ⟨"alice", "proj", "main", 9⟩⟩,
       .cloned "proj") ∧
    4 ≤ (⟨"alice", "proj", "main", 9⟩ : RepoDescriptor).cloned_at :=
  clone_success_descriptor _ "tok" "alice/proj" "main" "alice" "proj" none
    ⟨none⟩ [("src.py", "pass")] none true 4 9 rfl (by decide) (Or.inl rfl)
    (by decide)

/-- C10: the walk exclusion in status and push is substring-based: every
file whose walk-root directory string contains `.reporouge` anywhere is
absent from the status listing and from the eligible push file set, for
any directory layout, so such files are never listed or uploaded. -/
theorem substring_exclusion (fs : List WFile) (f : WFile)
    (h : ∃ pre post, (walkRoot f.dirs).data = pre ++ ".reporouge".data ++ post) :
    f ∉ statusFiles fs ∧ f ∉ fs.filter pushEligible := by
  have hS : strHasSub ".reporouge" (walkRoot f.dirs) = true := by
    unfold strHasSub
    exact (hasSub_iff _ _).mpr h
  constructor
  · intro hmem
    unfold statusFiles at hmem
    have hb := (List.mem_filter.mp hmem).2
    rw [hS] at hb
    simp at hb
  · intro hmem
    have hb := (List.mem_filter.mp hmem).2
    unfold pushEligible at hb
    rw [hS] at hb
    simp at hb

/-- Witness for C10 at a folder named `docs.reporouge`. -/
theorem substring_exclusion_witness :
    (⟨["docs.reporouge"], "api.md", true, true, true, "text"⟩ : WFile) ∉
      statusFiles [⟨["docs.reporouge"], "api.md", true, true, true, "text"⟩] ∧
    (⟨["docs.reporouge"], "api.md", true, true, true, "text"⟩ : WFile) ∉
      [(⟨["docs.reporouge"], "api.md", true, true, true, "text"⟩ : WFile)].filter
        pushEligible :=
  substring_exclusion _ _ ⟨"./docs".data, [], by decide⟩
